import Mathlib

/-
Verification of the Velocity evidence-acquisition and answer-synthesis
pipeline (src/velocity): a shallow embedding, in Lean 4, of the text
cleaning, sentence segmentation and ranking, key-fact extraction, answer
synthesis, hypothesis scoring and network-interrogation fallback logic,
together with theorems settling the specification claims about them.

Conventions of the embedding:
* Python `str` is modelled as Lean `String`; character-level work happens
  on `List Char`.
* Python `float` is modelled exactly: by `ℚ` where the program only does
  field arithmetic on decimal constants, and by `ℝ` where `math.log`
  enters (sentence scoring).  Decimal literals denote the same numbers.
* The Unicode case/whitespace/word-character tables are modelled on the
  character repertoire the program's bilingual (English/Turkish)
  dictionaries and regexes engage: ASCII plus çğıöşü/ÇĞİÖŞÜ, plus the
  standard Unicode whitespace code points.
* Each `re.sub`/`re.search`/`re.finditer` call is hand-compiled, pattern
  by pattern, into a left-to-right scanner with the same match semantics
  (leftmost match, greedy/lazy quantifiers, word boundaries, case
  folding) on that repertoire.
* Instance-level statistics counters (`queries_executed`, timing) are
  side state the claims do not touch; functions are modelled on their
  inputs and return values, with source outcomes of network calls
  passed in explicitly as `Attempt` values.
-/

/-! ## Python string primitives -/

/-- Python `str` whitespace: the characters `\s` matches and
`str.strip`/`str.split` remove (ASCII whitespace and the standard Unicode
space code points). -/
def pyIsSpace (c : Char) : Bool :=
  c.toNat == 32 || c.toNat == 9 || c.toNat == 10 || c.toNat == 13 ||
  c.toNat == 11 || c.toNat == 12 ||
  (decide (28 ≤ c.toNat) && decide (c.toNat ≤ 31)) ||
  c.toNat == 133 || c.toNat == 160 || c.toNat == 0x1680 ||
  (decide (0x2000 ≤ c.toNat) && decide (c.toNat ≤ 0x200a)) ||
  c.toNat == 0x2028 || c.toNat == 0x2029 || c.toNat == 0x202f ||
  c.toNat == 0x205f || c.toNat == 0x3000

/-- The lowercase Turkish letters appearing in the program's regexes. -/
def turkishLowerChars : List Char := ['ç', 'ğ', 'ı', 'ö', 'ş', 'ü']

/-- The uppercase Turkish letters appearing in the program's regexes. -/
def turkishUpperChars : List Char := ['Ç', 'Ğ', 'İ', 'Ö', 'Ş', 'Ü']

/-- Python regex `\w` (word character) on the modelled repertoire:
ASCII alphanumerics, underscore, and the Turkish letters. -/
def isWordChar (c : Char) : Bool :=
  c.isAlphanum || c == '_' ||
  turkishLowerChars.contains c || turkishUpperChars.contains c

/-- Single-character lower-casing on the modelled repertoire (also the
case folding `re.IGNORECASE` applies, where U+0130 İ folds to `i`). -/
def pyLowerChar (c : Char) : Char :=
  if c.isUpper then c.toLower
  else if c == 'Ç' then 'ç'
  else if c == 'Ğ' then 'ğ'
  else if c == 'İ' then 'i'
  else if c == 'Ö' then 'ö'
  else if c == 'Ş' then 'ş'
  else if c == 'Ü' then 'ü'
  else c

/-- CPython `str.lower` on the modelled repertoire: U+0130 (İ) lowers to
`i` followed by the combining dot U+0307; every other modelled character
maps one-to-one through `pyLowerChar`. -/
def pyLowerL (l : List Char) : List Char :=
  l.foldr
    (fun c acc =>
      if c == 'İ' then 'i' :: Char.ofNat 0x307 :: acc else pyLowerChar c :: acc)
    []

/-- Single-character upper-casing on the modelled repertoire
(`str.upper` of a one-character string; `ı` uppercases to `I`). -/
def pyUpperChar (c : Char) : Char :=
  if c.isLower then c.toUpper
  else if c == 'ç' then 'Ç'
  else if c == 'ğ' then 'Ğ'
  else if c == 'ı' then 'I'
  else if c == 'ö' then 'Ö'
  else if c == 'ş' then 'Ş'
  else if c == 'ü' then 'Ü'
  else c

/-- Python `str.islower` for a single character, on the modelled
repertoire. -/
def pyIsLowerChar (c : Char) : Bool :=
  c.isLower || turkishLowerChars.contains c

/-- Case-insensitive character comparison as `re.IGNORECASE` performs it
(simple one-to-one folding). -/
def foldEq (a b : Char) : Bool :=
  pyLowerChar a == pyLowerChar b

/-- Accumulator pass of `pySplitWs`: `acc` holds the current word,
reversed. -/
def pySplitWsGo : List Char → List Char → List (List Char)
  | [], acc => if acc.isEmpty then [] else [acc.reverse]
  | c :: rest, acc =>
    if pyIsSpace c then
      if acc.isEmpty then pySplitWsGo rest [] else acc.reverse :: pySplitWsGo rest []
    else pySplitWsGo rest (c :: acc)

/-- Python `str.split()` with no separator: split on runs of whitespace,
discarding empty pieces. -/
def pySplitWs (l : List Char) : List (List Char) :=
  pySplitWsGo l []

/-- Python `str.strip()` on character lists. -/
def pyStripL (l : List Char) : List Char :=
  ((l.dropWhile pyIsSpace).reverse.dropWhile pyIsSpace).reverse

/-- Python `str.strip()`. -/
def pyStrip (s : String) : String := String.mk (pyStripL s.data)

/-- Python `str.rstrip(cs)`: drop trailing characters belonging to `cs`. -/
def pyRstrip (cs : List Char) (l : List Char) : List Char :=
  (l.reverse.dropWhile (fun c => cs.contains c)).reverse

/-- Whether `needle` is a prefix of `hay` (character-exact). -/
def startsWithL : List Char → List Char → Bool
  | [], _ => true
  | _ :: _, [] => false
  | n :: ns, h :: hs => n == h && startsWithL ns hs

/-- Python substring test `needle in hay` (contiguous substring; the
empty string is a substring of everything). -/
def containsL (needle : List Char) : List Char → Bool
  | [] => needle.isEmpty
  | c :: rest => startsWithL needle (c :: rest) || containsL needle rest

/-- Python substring test on `String`s. -/
def containsS (needle hay : String) : Bool := containsL needle.data hay.data

/-- Generic model of `re.sub` scanning: at each position, `m head tail`
either matches (returning the replacement and how many characters of
`tail` are consumed beyond the head) or does not, in which case the head
character is kept and scanning moves one character right.  All patterns
compiled through this matcher consume at least the head character, as
`re.sub` does for the patterns of this program (none match empty). -/
def scanSubAux (m : Char → List Char → Option (List Char × Nat)) :
    Nat → List Char → List Char
  | 0, l => l
  | _ + 1, [] => []
  | fuel + 1, c :: rest =>
    match m c rest with
    | some (rep, k) => rep ++ scanSubAux m fuel (rest.drop k)
    | none => c :: scanSubAux m fuel rest

/-- Scanning entry point: the budget is the length of the list; every
step consumes at least the head character, so a budget that bounds the
remaining length from above (it always does: the initial budget is the
length, and each step passes a tail, or a suffix of it, with the budget
less one) never runs out before the list does. -/
def scanSub (m : Char → List Char → Option (List Char × Nat)) (l : List Char) :
    List Char :=
  scanSubAux m l.length l

/-- Python `str.replace(pat, rep)` for a non-empty `pat` (all
non-overlapping occurrences, left to right; the program only replaces
non-empty literals). -/
def replaceAllL (pat rep : List Char) (l : List Char) : List Char :=
  if pat.isEmpty then l
  else
    scanSub
      (fun c rest =>
        if startsWithL pat (c :: rest) then some (rep, pat.length - 1) else none)
      l

/-- Python `str.replace` on `String`s. -/
def replaceAllS (s pat rep : String) : String :=
  String.mk (replaceAllL pat.data rep.data s.data)

/-! ## NetworkInterrogator (src/velocity/network/interrogator.py)

The network calls themselves are outside the program text; what the
claims constrain is the fallback logic around them.  The outcome of
awaiting one source coroutine is modelled as an `Attempt`: either a
returned result dict or a raised exception. -/

/-- Outcome of awaiting one source attempt: a returned value or a raised
exception (with its message). -/
inductive Attempt (α : Type) where
  | ok (v : α)
  | exn (msg : String)

/-- Partial inverse used by the `asyncio.gather(..., return_exceptions=True)`
post-processing loop: keep returned values. -/
def attemptOk {α : Type} : Attempt α → Option α
  | .ok v => some v
  | .exn _ => none

/-- Whether a gathered task outcome is an exception. -/
def attemptIsExn {α : Type} : Attempt α → Bool
  | .ok _ => false
  | .exn _ => true

/-- The result dict a source returns (EvidenceRecord): `success`, the
echoed query, a source label, extracted content, string-rendered
metadata, and — on the total-failure path only — an error message. -/
structure QueryRes where
  success : Bool
  query : String
  source : String := ""
  content : String := ""
  metadata : List (String × String) := []
  error : Option String := none
deriving Repr, DecidableEq

/-- The built-in topic table of `_simulated_search_enhanced`
(interrogator.py lines 361-366), in insertion order. -/
def knowledge_base : List (String × String) :=
  [("python",
    "Python is a high-level, interpreted programming language created by Guido van Rossum and first released in 1991. It emphasizes code readability with significant whitespace. Python supports multiple programming paradigms including procedural, object-oriented, and functional programming."),
   ("quantum computing",
    "Quantum computing is a type of computation that uses quantum mechanical phenomena like superposition and entanglement. Unlike classical computers that use bits (0 or 1), quantum computers use quantum bits or qubits that can exist in multiple states simultaneously."),
   ("artificial intelligence",
    "Artificial Intelligence (AI) is the simulation of human intelligence processes by machines, especially computer systems. These processes include learning, reasoning, and self-correction. AI applications include expert systems, natural language processing, speech recognition and machine vision."),
   ("machine learning",
    "Machine learning is a subset of artificial intelligence that provides systems the ability to automatically learn and improve from experience without being explicitly programmed. It focuses on developing computer programs that can access data and use it to learn for themselves.")]

/-- Command-word cleaning shared by the query functions:
`query.replace("answer:", "").replace("documentation", "").strip()`. -/
def cleanQueryOf (query : String) : String :=
  pyStrip (replaceAllS (replaceAllS query "answer:" "") "documentation" "")

/-- The deterministic local-knowledge fallback
`_simulated_search_enhanced` (interrogator.py lines 348-400): substring
match of the cleaned, lowered query against the topic table (first
matching entry in insertion order, matching either direction), else a
generic templated notice; always `success := true`. -/
def simulated_search_enhanced (query : String) : QueryRes :=
  let clean_query := cleanQueryOf query
  let query_lower := String.mk (pyLowerL clean_query.data)
  match knowledge_base.find?
      (fun kv => containsS kv.1 query_lower || containsS query_lower kv.1) with
  | some kv =>
    { success := true, query := query, source := "knowledge_base:" ++ kv.1,
      content := kv.2,
      metadata := [("simulated", "True"), ("matched_key", kv.1)] }
  | none =>
    { success := true, query := query,
      source := "knowledge_base:" ++ clean_query,
      content :=
        "Information about " ++ clean_query ++
        ":\n\nThis is enhanced simulated content for Velocity testing. In production, this would come from real search APIs, databases, and network sources. The Velocity Paradigm emphasizes real-time network interrogation rather than pre-trained knowledge storage.",
      metadata := [("simulated", "True"), ("matched_key", clean_query)] }

/-- One step of the `_execute_query` fallback chain: a source attempt
counts as a success only if it returned (did not raise) a dict with
`success` true; a raised exception is caught at the source boundary and a
returned dict with `success` false falls through. -/
def sourceSuccess : Attempt QueryRes → Option QueryRes
  | .ok r => if r.success then some r else none
  | .exn _ => none

/-- The fallback chain of `_execute_query` (interrogator.py lines
96-140): Wikipedia summary, then DuckDuckGo instant answer, then the
local-knowledge fallback.  The outcome of awaiting each network source is
passed in as an `Attempt`. -/
def execute_query (wiki ddg : Attempt QueryRes) (query : String) : QueryRes :=
  match sourceSuccess wiki with
  | some r => r
  | none =>
    match sourceSuccess ddg with
    | some r => r
    | none => simulated_search_enhanced query

/-- The bounded parallel fan-out `search_parallel` (interrogator.py lines
51-94): tasks are created for `queries[:max_parallel]` only; gathered
outcomes that are exceptions are counted (the `errors` statistic
increment) and excluded from the returned list.  `run` gives each
dispatched task's outcome. -/
def search_parallel (maxParallel : Nat) (run : String → Attempt QueryRes)
    (queries : List String) : List QueryRes × Nat :=
  let results := (queries.take maxParallel).map run
  (results.filterMap attemptOk, (results.filter attemptIsExn).length)

/-! ## HypothesisEvaluator (src/velocity/evaluation/hypothesis.py) -/

/-- One piece of evidence in a topic bucket of the cognitive state. -/
structure Evidence where
  content : String
  confidence : ℚ

/-- A recorded contradiction: two conflicting claims and a severity. -/
structure Contradiction where
  claim_a : String
  claim_b : String
  severity : ℚ

/-- The slice of the CognitiveState `_score_hypothesis` reads: the
`knowledge` topic buckets and the `contradictions` list. -/
structure CognitiveState where
  knowledge : List (String × List Evidence)
  contradictions : List Contradiction

/-- The word set a text contributes to Jaccard overlap:
`set(text.lower().split())`. -/
def wordFinset (s : String) : Finset String :=
  ((pySplitWs (pyLowerL s.data)).map String.mk).toFinset

/-- Jaccard word overlap `_text_overlap` (hypothesis.py lines 110-125):
zero if either word set is empty, else intersection size over union
size. -/
def text_overlap (t1 t2 : String) : ℚ :=
  let words1 := wordFinset t1
  let words2 := wordFinset t2
  if words1 = ∅ ∨ words2 = ∅ then 0
  else if 0 < (words1 ∪ words2).card then
    ((words1 ∩ words2).card : ℚ) / ((words1 ∪ words2).card : ℚ)
  else 0

/-- Hypothesis scoring `_score_hypothesis` (hypothesis.py lines 75-108):
a length-based base term capped at 1, plus per-evidence support terms,
minus contradiction penalties for contradictions whose claims occur as
substrings of the hypothesis, the total clamped to [0, 1] at the end. -/
def score_hypothesis (hypothesis : String) (state : CognitiveState) : ℚ :=
  let base : ℚ := min 1 ((hypothesis.length : ℚ) / 200)
  let withEvidence :=
    state.knowledge.foldl
      (fun acc te =>
        te.2.foldl
          (fun a ev => a + text_overlap hypothesis ev.content * ev.confidence * (0.1 : ℚ))
          acc)
      base
  let withPenalty :=
    state.contradictions.foldl
      (fun acc ct =>
        if containsS ct.claim_a hypothesis || containsS ct.claim_b hypothesis then
          acc - ct.severity * (0.2 : ℚ)
        else acc)
      withEvidence
  max 0 (min 1 withPenalty)

/-- One scored hypothesis, as the result dicts of `evaluate_parallel`. -/
structure HypothesisScore where
  hypothesis : String
  score : ℚ
  method : String
deriving Inhabited

/-- The evaluation loop of `evaluate_parallel` (hypothesis.py lines
34-73): score every hypothesis independently, in input order (the early
`return []` for an empty list coincides with mapping over `[]`). -/
def evaluate_parallel (hypotheses : List String) (state : CognitiveState) :
    List HypothesisScore :=
  hypotheses.map
    (fun h => { hypothesis := h, score := score_hypothesis h state, method := "cpu" })

/-! ## Confidence labelling (nlp_engine.py lines 628-636) -/

/-- The cutoff chain of `AnswerEngine._confidence_label`. -/
def confidence_label (c : ℚ) : String :=
  if 0.8 ≤ c then "High"
  else if 0.55 ≤ c then "Moderate"
  else if 0.3 ≤ c then "Low"
  else "Very Low"

/-! ## TextNormalizer: deep_clean (nlp_engine.py lines 102-161)

Each compiled regex of the module is hand-translated into a `scanSub`
matcher with the same leftmost/greedy semantics. -/

/-- The space character (written by code point to keep literals uniform). -/
def spaceChar : Char := Char.ofNat 32

/-- Length of the leading `\S+` run (non-whitespace). -/
def nonSpaceRunLen (l : List Char) : Nat :=
  (l.takeWhile (fun c => !pyIsSpace c)).length

/-- Matcher for `_RE_URL = https?://\S+|www\.\S+`, replaced by nothing.
The first alternative is tried first; each needs at least one
non-whitespace character after its literal prefix. -/
def mUrl (c : Char) (rest : List Char) : Option (List Char × Nat) :=
  let full := c :: rest
  if startsWithL "https://".data full then
    let k := nonSpaceRunLen (full.drop 8)
    if 0 < k then some ([], 8 + k - 1) else none
  else if startsWithL "http://".data full then
    let k := nonSpaceRunLen (full.drop 7)
    if 0 < k then some ([], 7 + k - 1) else none
  else if startsWithL "www.".data full then
    let k := nonSpaceRunLen (full.drop 4)
    if 0 < k then some ([], 4 + k - 1) else none
  else none

/-- Matcher for `_RE_REF = \[\d+\]` (bracketed reference markers),
replaced by nothing. -/
def mRef (c : Char) (rest : List Char) : Option (List Char × Nat) :=
  if c == '[' then
    let ds := rest.takeWhile Char.isDigit
    if ds.isEmpty then none
    else
      match rest.drop ds.length with
      | ']' :: _ => some ([], ds.length + 1)
      | _ => none
  else none

/-- Matcher for `_RE_PARENS_EMPTY = \(\s*\)`, replaced by nothing. -/
def mParensEmpty (c : Char) (rest : List Char) : Option (List Char × Nat) :=
  if c == '(' then
    let ws := rest.takeWhile pyIsSpace
    match rest.drop ws.length with
    | ')' :: _ => some ([], ws.length + 1)
    | _ => none
  else none

/-- The bullet and separator glyphs of `_RE_BULLETS`. -/
def bulletChars : List Char := ['·', '•', '|', '►', '▸', '▹', '▶', '‣', '⁃', '–', '—']

/-- Matcher for `_RE_BULLETS = [·•|►▸▹▶‣⁃–—]+`, replaced by `. `. -/
def mBullets (c : Char) (rest : List Char) : Option (List Char × Nat) :=
  if bulletChars.contains c then
    some (['.', spaceChar], (rest.takeWhile (fun d => bulletChars.contains d)).length)
  else none

/-- Matcher for `_RE_CAMEL = ([a-z])([A-Z])` (case-sensitive ASCII),
replaced by the two characters with a space between. -/
def mCamel (c : Char) (rest : List Char) : Option (List Char × Nat) :=
  match rest with
  | d :: _ => if c.isLower && d.isUpper then some ([c, spaceChar, d], 1) else none
  | [] => none

/-- Matcher for `_RE_WORD_NUM = ([A-Za-z])(\d)`. -/
def mWordNum (c : Char) (rest : List Char) : Option (List Char × Nat) :=
  match rest with
  | d :: _ => if c.isAlpha && d.isDigit then some ([c, spaceChar, d], 1) else none
  | [] => none

/-- Matcher for `_RE_NUM_WORD = (\d)([A-Za-z])`. -/
def mNumWord (c : Char) (rest : List Char) : Option (List Char × Nat) :=
  match rest with
  | d :: _ => if c.isDigit && d.isAlpha then some ([c, spaceChar, d], 1) else none
  | [] => none

/-- The character class `[a-zçğıöşü]` under `re.I`: ASCII letters of
either case and the Turkish letters of either case. -/
def glueClassChar (c : Char) : Bool :=
  c.isAlpha || turkishLowerChars.contains c || turkishUpperChars.contains c

/-- The three-letter function words of the concatenation-repair rule. -/
def glueWords3 : List (List Char) :=
  ["non".data, "the".data, "and".data, "for".data, "are".data,
   "was".data, "has".data, "had".data, "can".data, "not".data]

/-- The four-letter function words of the concatenation-repair rule. -/
def glueWords4 : List (List Char) :=
  ["with".data, "from".data, "into".data, "that".data, "this".data, "will".data]

/-- Case folding of a character list for `re.IGNORECASE` comparison. -/
def listFoldLower (l : List Char) : List Char := l.map pyLowerChar

/-- Matcher for the step-5b concatenation repair
`([a-zçğıöşü]{3,})(non|the|and|for|with|from|into|that|this|are|was|has|had|can|will|not)\b`
(re.I), replaced by `\1 \2`.  Because the function words consist of class
characters and `\b` requires a non-word character (or the end) after the
match, the whole match is exactly a maximal class-character run that ends
in one of the function words, with at least three characters before it;
the greedy `{3,}` prefers the three-letter suffixes over the four-letter
ones. -/
def mGlue (c : Char) (rest : List Char) : Option (List Char × Nat) :=
  if glueClassChar c then
    let run := c :: rest.takeWhile glueClassChar
    let n := run.length
    let boundary :=
      match (c :: rest).drop n with
      | [] => true
      | d :: _ => !isWordChar d
    if boundary then
      if 6 ≤ n ∧ glueWords3.contains (listFoldLower (run.drop (n - 3))) = true then
        some (run.take (n - 3) ++ spaceChar :: run.drop (n - 3), n - 1)
      else if 7 ≤ n ∧ glueWords4.contains (listFoldLower (run.drop (n - 4))) = true then
        some (run.take (n - 4) ++ spaceChar :: run.drop (n - 4), n - 1)
      else none
    else none
  else none

/-- Matcher for `_RE_MULTI_NEWLINE = \n{3,}`, replaced by two newlines. -/
def mMultiNewline (c : Char) (rest : List Char) : Option (List Char × Nat) :=
  if c == '\n' then
    let k := (rest.takeWhile (fun d => d == '\n')).length
    if 2 ≤ k then some (['\n', '\n'], k) else none
  else none

/-- Matcher for `_RE_MULTI_SPACE = [ \t]+`, replaced by one space. -/
def mMultiSpace (c : Char) (rest : List Char) : Option (List Char × Nat) :=
  if c == spaceChar || c == '\t' then
    some ([spaceChar], (rest.takeWhile (fun d => d == spaceChar || d == '\t')).length)
  else none

/-- The punctuation class of the spacing-normalisation step. -/
def punctChars : List Char := [',', ';', ':', '!', '?', '.']

/-- Matcher for `\s*([,;:!?.])\s*`, replaced by the punctuation character
followed by one space. -/
def mPunctSpace (c : Char) (rest : List Char) : Option (List Char × Nat) :=
  let full := c :: rest
  let ws1 := full.takeWhile pyIsSpace
  match full.drop ws1.length with
  | p :: after =>
    if punctChars.contains p then
      let ws2 := after.takeWhile pyIsSpace
      some ([p, spaceChar], ws1.length + ws2.length)
    else none
  | [] => none

/-- Matcher for `\s+\.`, replaced by a period. -/
def mSpaceDot (c : Char) (rest : List Char) : Option (List Char × Nat) :=
  let full := c :: rest
  let ws := full.takeWhile pyIsSpace
  if ws.isEmpty then none
  else
    match full.drop ws.length with
    | '.' :: _ => some (['.'], ws.length)
    | _ => none

/-- Matcher for `\.{2,}`, replaced by a period. -/
def mMultiDot (c : Char) (rest : List Char) : Option (List Char × Nat) :=
  if c == '.' then
    let k := (rest.takeWhile (fun d => d == '.')).length
    if 1 ≤ k then some (['.'], k) else none
  else none

/-- Matcher for `\.\s*\.`, replaced by a period. -/
def mDotSpaceDot (c : Char) (rest : List Char) : Option (List Char × Nat) :=
  if c == '.' then
    let ws := rest.takeWhile pyIsSpace
    match rest.drop ws.length with
    | '.' :: _ => some (['.'], ws.length + 1)
    | _ => none
  else none

/-- Python `str.split('\n')`: split at every newline, keeping empty
pieces. -/
def splitOnNl : List Char → List (List Char)
  | [] => [[]]
  | c :: rest =>
    if c == '\n' then [] :: splitOnNl rest
    else
      match splitOnNl rest with
      | [] => [[c]]
      | h :: t => (c :: h) :: t

/-- The `_BOILERPLATE_MARKERS` set (membership only, so order is
irrelevant). -/
def boilerplateMarkers : List (List Char) :=
  ["cookie".data, "privacy".data, "subscribe".data, "newsletter".data,
   "advertisement".data, "copyright".data, "terms of use".data,
   "accept all".data, "sign in".data, "sign up".data,
   "toggle navigation".data, "skip to content".data, "loading".data,
   "read more".data, "show more".data, "click here".data,
   "download app".data, "install now".data, "close this".data,
   "dismiss".data]

/-- The line filter of step 8: a stripped line is kept unless it is
shorter than 15 characters without ending in a period, or its lowering
contains a boilerplate marker (an empty line is dropped either way). -/
def keepLine (line : List Char) : Bool :=
  (decide (15 ≤ line.length) ||
    (match line.getLast? with
     | some d => d == '.'
     | none => false)) &&
  !(boilerplateMarkers.any (fun m => containsL m (pyLowerL line)))

/-- The `deep_clean` pipeline (nlp_engine.py lines 102-161): URL and
reference stripping, empty parens, bullet glyphs, camelCase and
letter-digit splits, concatenation repair, whitespace normalisation,
punctuation spacing, then line-by-line boilerplate filtering and a final
space collapse and strip. -/
def deep_clean (s : String) : String :=
  if s.isEmpty then ""
  else
    let l1 := scanSub mUrl s.data
    let l2 := scanSub mRef l1
    let l3 := scanSub mParensEmpty l2
    let l4 := scanSub mBullets l3
    let l5 := scanSub mCamel l4
    let l6 := scanSub mWordNum l5
    let l7 := scanSub mNumWord l6
    let l8 := scanSub mGlue l7
    let l9 := scanSub mMultiNewline l8
    let l10 := scanSub mMultiSpace l9
    let l11 := scanSub mPunctSpace l10
    let l12 := scanSub mSpaceDot l11
    let l13 := scanSub mMultiDot l12
    let l14 := scanSub mDotSpaceDot l13
    let kept := ((splitOnNl l14).map pyStripL).filter keepLine
    String.mk (pyStripL (scanSub mMultiSpace (List.intercalate [spaceChar] kept)))

/-! ## Word-boundary phrase search (the `\b(alt|...)\b` regexes) -/

/-- Word boundary before a match: the predecessor (if any) and the first
matched text character must differ in word-character status (`\b` at the
start of the string holds iff the first character is a word character). -/
def boundaryBefore (prev : Option Char) (first : Char) : Bool :=
  match prev with
  | none => isWordChar first
  | some d => isWordChar d != isWordChar first

/-- Word boundary after a match: the last matched text character and the
successor (if any) must differ in word-character status (`\b` at the end
of the string holds iff the last character is a word character). -/
def boundaryAfter (lastc : Char) (next : Option Char) : Bool :=
  match next with
  | none => isWordChar lastc
  | some d => isWordChar lastc != isWordChar d

/-- Case-insensitive phrase match at the head of `l`, collecting the
matched text characters (in `acc`, reversed) and returning them with the
rest of the text. -/
def stripPhraseFold : List Char → List Char → List Char → Option (List Char × List Char)
  | [], acc, l => some (acc.reverse, l)
  | _ :: _, _, [] => none
  | p :: ps, acc, c :: cs =>
    if foldEq p c then stripPhraseFold ps (c :: acc) cs else none

/-- Whether the non-empty phrase `ph` matches at the head of `l`
case-insensitively, with `\b` satisfied on both sides (`prev` is the
character before the match position). -/
def phraseMatchAt (ph : List Char) (prev : Option Char) (l : List Char) : Bool :=
  match stripPhraseFold ph [] l with
  | some (matched, after) =>
    match matched.head?, matched.getLast? with
    | some fc, some lc => boundaryBefore prev fc && boundaryAfter lc after.head?
    | _, _ => false
  | none => false

/-- Model of `re.search` for a pattern `\b(ph1|ph2|...)\b` with
`re.IGNORECASE`: scan every position, testing each alternative with its
boundaries; returns whether any match exists. -/
def searchPhrases (phrases : List (List Char)) : Option Char → List Char → Bool
  | _, [] => false
  | prev, c :: rest =>
    phrases.any (fun ph => phraseMatchAt ph prev (c :: rest)) ||
    searchPhrases phrases (some c) rest

/-- The alternatives of `_RE_NAVIGATION` (nlp_engine.py lines 80-86),
with the inner groups expanded; the search is case-insensitive and the
order of alternatives cannot affect a boolean search. -/
def navPhrases : List (List Char) :=
  ["menu".data, "breadcrumb".data, "sidebar".data, "skip to".data,
   "cookie".data, "accept".data, "privacy policy".data, "sign in".data,
   "log in".data, "sign up".data, "subscribe".data, "newsletter".data,
   "advertisement".data, "copyright ©".data, "all rights reserved".data,
   "terms of use".data, "terms of service".data, "toggle navigation".data,
   "search...".data, "loading".data, "read more".data, "show more".data,
   "click here".data, "tap to".data, "swipe".data, "download app".data,
   "install".data, "upgrade".data]

/-! ## SentenceSegmenter (nlp_engine.py lines 168-187) -/

/-- State machine for `_RE_SENTENCE_SPLIT.split`, the split on
`(?<=[.!?])\s+`: `acc` holds the current fragment reversed; `skip` is
true while consuming the whitespace run of a separator just after a
split.  A split happens at a whitespace character whose predecessor (the
head of `acc`) is `.`, `!` or `?`. -/
def splitSentGo : Bool → List Char → List Char → List (List Char)
  | _, acc, [] => [acc.reverse]
  | skip, acc, c :: rest =>
    if skip && pyIsSpace c then splitSentGo true acc rest
    else
      if pyIsSpace c &&
          (match acc with
           | p :: _ => p == '.' || p == '!' || p == '?'
           | [] => false) then
        acc.reverse :: splitSentGo true [] rest
      else splitSentGo false (c :: acc) rest

/-- The sentence split `_RE_SENTENCE_SPLIT.split(text)`. -/
def splitSentences (l : List Char) : List (List Char) :=
  splitSentGo false [] l

/-- The segmentation filter `segment_sentences`: strip each raw
fragment; drop it when shorter than 20 characters, containing fewer than
3 spaces (fewer than 4 words), or matching the navigation pattern;
capitalize a lowercase first letter and append a period when terminal
punctuation is missing. -/
def segment_sentences (text : String) : List String :=
  (splitSentences text.data).filterMap (fun raw =>
    let s := pyStripL raw
    if s.length < 20 then none
    else if (s.filter (fun c => c == spaceChar)).length < 3 then none
    else if searchPhrases navPhrases none s then none
    else
      let s2 :=
        match s with
        | c :: cs => if pyIsLowerChar c then pyUpperChar c :: cs else c :: cs
        | [] => []
      let s3 :=
        match s2.getLast? with
        | some d => if d == '.' || d == '!' || d == '?' then s2 else s2 ++ ['.']
        | none => s2 ++ ['.']
      some (String.mk s3))

/-! ## RelevanceRanker: score_sentences (nlp_engine.py lines 190-297) -/

/-- A scored, classified sentence (the `Sentence` dataclass). -/
structure Sentence where
  text : String
  index : Nat
  score : ℝ := 0
  relevance : ℝ := 0
  position_score : ℝ := 0
  length_score : ℝ := 0
  entity_score : ℝ := 0
  is_definition : Bool := false
  is_biographical : Bool := false
  source : String := ""

noncomputable instance : Inhabited Sentence := ⟨{ text := "", index := 0 }⟩

/-- The token list of a sentence: `text.lower().split()`. -/
def tokensOf (s : String) : List String :=
  (pySplitWs (pyLowerL s.data)).map String.mk

/-- The token set of a sentence: `set(text.lower().split())`. -/
def tokenFinset (s : String) : Finset String :=
  (tokensOf s).toFinset

/-- Document frequency of a word across the sentence mini-corpus: the
number of sentences whose token set contains it (`_idf_weights` counts
each sentence once via `set`). -/
def docFreq (sentences : List String) (w : String) : Nat :=
  (sentences.filter (fun t => decide (w ∈ tokenFinset t))).length

/-- The IDF weight `ln((N+1)/(df(w)+1)) + 1` of `_idf_weights`; a word
that occurs in no sentence is not a key of the dict, and
`idf.get(t, 1.0)` falls back to 1. -/
noncomputable def idfWeight (sentences : List String) (w : String) : ℝ :=
  if 0 < docFreq sentences w then
    Real.log (((sentences.length : ℝ) + 1) / ((docFreq sentences w : ℝ) + 1)) + 1
  else 1

/-- The definition-signal alternatives of the `is_def` regex
(nlp_engine.py lines 259-263), searched case-insensitively with `\b` on
both sides. -/
def defPhrases : List (List Char) :=
  ["is a".data, "is an".data, "is the".data, "refers to".data,
   "defined as".data, "are".data, "bir".data, "olan".data, "olarak".data,
   "anlamına gelir".data, "denir".data, "demektir".data]

/-- The biographical-signal alternatives of the `is_bio` regex
(nlp_engine.py lines 264-270). -/
def bioPhrases : List (List Char) :=
  ["born".data, "founded".data, "created".data, "developed".data,
   "known for".data, "career".data, "researcher".data, "author".data,
   "architect".data, "engineer".data, "scientist".data, "professor".data,
   "CEO".data, "developer".data, "doğum".data, "kurucu".data,
   "geliştirici".data, "bilinen".data, "kariyer".data, "araştırmacı".data,
   "mühendis".data, "yazar".data, "bilim insanı".data, "yazılımcı".data]

/-- Scoring of one sentence at position `idx` of the corpus: the loop
body of `score_sentences` (nlp_engine.py lines 227-293). -/
noncomputable def scoreOne (sentences : List String) (query : String)
    (query_entities : List String) (idx : Nat) (text : String) : Sentence :=
  let tokens := tokensOf text
  let token_set := tokenFinset text
  let query_tokens := tokenFinset query
  let overlap := query_tokens ∩ token_set
  let relevance : ℝ :=
    if overlap.Nonempty then
      (∑ t ∈ overlap, idfWeight sentences t) / (max query_tokens.card 1 : ℝ)
    else 0
  let pos_ratio : ℝ := (idx : ℝ) / (max sentences.length 1 : ℝ)
  let position_score : ℝ := max 0 (1 - pos_ratio * 1.2)
  let wcount := tokens.length
  let length_score : ℝ :=
    if 15 ≤ wcount ∧ wcount ≤ 50 then 1
    else if (10 ≤ wcount ∧ wcount < 15) ∨ (50 < wcount ∧ wcount ≤ 80) then 0.6
    else 0.3
  let entity_score : ℝ :=
    query_entities.foldl
      (fun acc ent =>
        if containsL (pyLowerL ent.data) (pyLowerL text.data) then acc + 0.5
        else acc)
      0
  let is_def := searchPhrases defPhrases none text.data
  let is_bio := searchPhrases bioPhrases none text.data
  let composite : ℝ :=
    relevance * 0.45 + position_score * 0.15 + length_score * 0.10 +
      entity_score * 0.20 + (if is_def then 0.10 else 0) +
      (if is_bio then 0.10 else 0)
  { text := text, index := idx, score := composite, relevance := relevance,
    position_score := position_score, length_score := length_score,
    entity_score := entity_score, is_definition := is_def,
    is_biographical := is_bio }

/-- The scoring loop `for idx, text in enumerate(sentences)`. -/
noncomputable def scoreSentencesFrom (sentences : List String) (query : String)
    (query_entities : List String) : Nat → List String → List Sentence
  | _, [] => []
  | idx, t :: rest =>
    scoreOne sentences query query_entities idx t ::
      scoreSentencesFrom sentences query query_entities (idx + 1) rest

/-- The sort key relation of `scored.sort(key=lambda s: s.score,
reverse=True)`: descending by composite score. -/
def scoreRel (a b : Sentence) : Prop := b.score ≤ a.score

noncomputable instance : DecidableRel scoreRel :=
  fun a b => inferInstanceAs (Decidable (b.score ≤ a.score))

instance : IsTotal Sentence scoreRel :=
  ⟨fun a b => le_total b.score a.score⟩

instance : IsTrans Sentence scoreRel :=
  ⟨fun _ _ _ hab hbc => le_trans hbc hab⟩

/-- The ranker `score_sentences` (nlp_engine.py lines 203-297): score
every sentence in order, then sort by composite score descending.
Python's `list.sort` is stable, and on a list whose indices are in
original order any stable sort by non-increasing score yields the same
list as `insertionSort` with `scoreRel` (which is stable); an empty input
yields an empty output either way, matching the early return. -/
noncomputable def score_sentences (sentences : List String) (query : String)
    (query_entities : List String) : List Sentence :=
  List.insertionSort scoreRel (scoreSentencesFrom sentences query query_entities 0 sentences)

/-! ## Stability relation for the ranking sort -/

/-- The strict before-relation a stable descending sort realises:
strictly higher score, or original (index) order on ties. -/
def stableRel (a b : Sentence) : Prop :=
  b.score < a.score ∨ a.index < b.index

/-! ## AnswerComposer: extract_key_facts (nlp_engine.py lines 385-420) -/

/-- Fact emission for one kept sentence: trim to the first sentence of
the fragment (`_RE_SENTENCE_SPLIT.split(text)[0].strip()`), keep only
when non-empty and longer than 15 characters, and ensure terminal
punctuation. -/
def factOfText (text : String) : Option String :=
  let first := pyStripL ((splitSentences text.data).headD [])
  if first ≠ [] ∧ 15 < first.length then
    match first.getLast? with
    | some d =>
      if d == '.' || d == '!' || d == '?' then some (String.mk first)
      else some (String.mk (first ++ ['.']))
    | none => some (String.mk (first ++ ['.']))
  else none

/-- The dedup test of `extract_key_facts`:
`len(tokens & existing) / max(len(tokens), 1) > 0.60` (containment of the
candidate in the already-kept set), with the positive denominator cleared
(0.60 = 3/5, so the comparison is `3 * max(len, 1) < 5 * len∩`);
`overlapGt60_iff` below proves this equal to the source's fraction
comparison. -/
def overlapGt60 (tokens existing : Finset String) : Bool :=
  decide (3 * max tokens.card 1 < 5 * (tokens ∩ existing).card)

/-- The loop of `extract_key_facts`: stop once `max_facts` facts are
collected; reject a sentence whose token set overlaps any already-seen
token set by more than 60%; otherwise record its token set (before the
trim test, as the code does) and append its trimmed fact, if any. -/
def extractLoop (maxFacts : Nat) :
    List Sentence → List String → List (Finset String) → List String
  | [], facts, _ => facts
  | sent :: rest, facts, seen =>
    if maxFacts ≤ facts.length then facts
    else
      let tokens := tokenFinset sent.text
      if seen.any (fun existing => overlapGt60 tokens existing) then
        extractLoop maxFacts rest facts seen
      else
        match factOfText sent.text with
        | some fact => extractLoop maxFacts rest (facts ++ [fact]) (seen ++ [tokens])
        | none => extractLoop maxFacts rest facts (seen ++ [tokens])

/-- The key-fact extractor `extract_key_facts` (the `query` parameter is
unused in the body, as in the source). -/
def extract_key_facts (scored_sentences : List Sentence) (_query : String)
    (maxFacts : Nat) : List String :=
  extractLoop maxFacts scored_sentences [] []

/-! ## Query-type detection and subject extraction
(nlp_engine.py lines 427-461) -/

/-- The intent detector `_detect_query_type`: word-boundary keyword
search on the lowered query, first hit wins in source order. -/
def detect_query_type (query : String) : String :=
  let q := pyLowerL query.data
  if searchPhrases ["kimdir".data, "who is".data, "who was".data, "who are".data]
      none q then "biographical"
  else if searchPhrases ["nedir".data, "what is".data, "what are".data,
      "define".data, "tanımla".data] none q then "definition"
  else if searchPhrases ["vs".data, "compare".data, "karşılaştır".data,
      "fark".data, "difference".data] none q then "comparative"
  else if searchPhrases ["how to".data, "nasıl".data, "steps".data,
      "adımlar".data] none q then "procedural"
  else if searchPhrases ["why".data, "neden".data, "sebep".data] none q then "causal"
  else "general"

/-- Backtracking of the greedy `\s+` before a greedy `(.+)` group: the
group starts after the longest whitespace prefix that still leaves a
non-empty run of non-newline characters, and extends to the end of the
line. -/
def dotPlusAfterWsAux (afterPh : List Char) : Nat → Option (List Char)
  | 0 => none
  | k + 1 =>
    let g := (afterPh.drop (k + 1)).takeWhile (fun c => !(c == '\n'))
    if g.isEmpty then dotPlusAfterWsAux afterPh k else some g

/-- The `\s+(.+)` tail of the subject patterns: at least one whitespace
character, then a greedy non-newline group of at least one character. -/
def dotPlusAfterWs (afterPh : List Char) : Option (List Char) :=
  let ws := afterPh.takeWhile pyIsSpace
  if ws.isEmpty then none else dotPlusAfterWsAux afterPh ws.length

/-- Model of `re.search(r'(?:ph1|ph2)\s+(.+)', q, re.I)`: leftmost
position; at each position the alternatives are tried in order, then the
`\s+(.+)` tail; the capture group is returned. -/
def searchPhraseGroup (ph1 ph2 : List Char) : List Char → Option (List Char)
  | [] => none
  | c :: rest =>
    match
      (match stripPhraseFold ph1 [] (c :: rest) with
       | some (_, after) => dotPlusAfterWs after
       | none => none) with
    | some g => some g
    | none =>
      match
        (match stripPhraseFold ph2 [] (c :: rest) with
         | some (_, after) => dotPlusAfterWs after
         | none => none) with
      | some g => some g
      | none => searchPhraseGroup ph1 ph2 rest

/-- Whether `l` begins with a whitespace run (at least one character)
followed immediately by `word` case-insensitively: the `\s+word` tail of
the lazy subject patterns (the greedy `\s+` must take the whole run,
since the words begin with non-whitespace). -/
def wsThenPhrase (word : List Char) (l : List Char) : Bool :=
  let ws := l.takeWhile pyIsSpace
  if ws.isEmpty then false
  else
    match stripPhraseFold word [] (l.drop ws.length) with
    | some _ => true
    | none => false

/-- The lazy group of `(.+?)\s+word` from a fixed start position: grow
the non-newline group one character at a time (smallest first) until the
`\s+word` tail matches. -/
def lazyGroupBefore (word : List Char) : List Char → List Char → Option (List Char)
  | _, [] => none
  | acc, c :: rest =>
    if c == '\n' then none
    else if wsThenPhrase word rest then some (c :: acc).reverse
    else lazyGroupBefore word (c :: acc) rest

/-- Model of `re.search(r'(.+?)\s+word', q, re.I)`: leftmost start
position, then lazily smallest group. -/
def searchLazyGroupThen (word : List Char) : List Char → Option (List Char)
  | [] => none
  | c :: rest =>
    match lazyGroupBefore word [] (c :: rest) with
    | some g => some g
    | none => searchLazyGroupThen word rest

/-- The subject extractor `_query_subject`: "who is/was X" (stripped,
then right-stripped of `?.`), "X kimdir" (stripped), "what is/are X",
"X nedir", else the whole query right-stripped of `?.!` and stripped. -/
def query_subject (query : String) : String :=
  let q := pyStripL query.data
  match searchPhraseGroup "who is".data "who was".data q with
  | some g => String.mk (pyRstrip ['?', '.'] (pyStripL g))
  | none =>
    match searchLazyGroupThen "kimdir".data q with
    | some g => String.mk (pyStripL g)
    | none =>
      match searchPhraseGroup "what is".data "what are".data q with
      | some g => String.mk (pyRstrip ['?', '.'] (pyStripL g))
      | none =>
        match searchLazyGroupThen "nedir".data q with
        | some g => String.mk (pyStripL g)
        | none => String.mk (pyStripL (pyRstrip ['?', '.', '!'] q))

/-! ## EntityExtractor (nlp_engine.py lines 305-378) -/

/-- An extracted named entity with metadata (the `Entity` dataclass). -/
structure Entity where
  name : String
  category : String
  aliases : List String := []
  attributes : List (String × String) := []
deriving Repr, DecidableEq

/-- Case-sensitive phrase match at the head of `l`, collecting matched
characters. -/
def stripPhraseExact : List Char → List Char → List Char → Option (List Char × List Char)
  | [], acc, l => some (acc.reverse, l)
  | _ :: _, _, [] => none
  | p :: ps, acc, c :: cs =>
    if p == c then stripPhraseExact ps (c :: acc) cs else none

/-- Trailing word boundary of a candidate match. -/
def boundaryAfterLast (matched after : List Char) : Bool :=
  match matched.getLast? with
  | some lc => boundaryAfter lc after.head?
  | none => false

/-- One case-insensitive alternative of a `\b(...)\b` finditer pattern:
the phrase must match at the head and satisfy the trailing boundary. -/
def altFold (ph : List Char) (l : List Char) : Option (List Char) :=
  match stripPhraseFold ph [] l with
  | some (matched, after) =>
    if boundaryAfterLast matched after then some matched else none
  | none => none

/-- One case-sensitive alternative (the organisation pattern compiles
without `re.IGNORECASE`). -/
def altExact (ph : List Char) (l : List Char) : Option (List Char) :=
  match stripPhraseExact ph [] l with
  | some (matched, after) =>
    if boundaryAfterLast matched after then some matched else none
  | none => none

/-- Generic `finditer` for a `\b(...)\b` pattern: scan left to right
with the leading word boundary checked against the previous character;
on a match record (previous character, matched text) and resume after
the match.  Implemented with a length budget like `scanSub`. -/
def finditerAux (tryAlt : List Char → Option (List Char)) :
    Nat → Option Char → List Char → List (Option Char × List Char)
  | 0, _, _ => []
  | _ + 1, _, [] => []
  | fuel + 1, prev, c :: rest =>
    match (if boundaryBefore prev c then tryAlt (c :: rest) else none) with
    | some matched =>
      (prev, matched) ::
        finditerAux tryAlt fuel matched.getLast? (rest.drop (matched.length - 1))
    | none => finditerAux tryAlt fuel (some c) rest

/-- Entry point of the generic finditer. -/
def finditerM (tryAlt : List Char → Option (List Char)) (l : List Char) :
    List (Option Char × List Char) :=
  finditerAux tryAlt l.length none l

/-- The alternatives of `_ROLE_PATTERNS`, in source order (the order
resolves overlapping alternatives at the same position, e.g. founder
before co-founder tried at the same start). -/
def rolePhrases : List (List Char) :=
  ["researcher".data, "engineer".data, "developer".data, "scientist".data,
   "professor".data, "architect".data, "founder".data, "co-founder".data,
   "CEO".data, "CTO".data, "author".data, "designer".data, "director".data,
   "manager".data, "specialist".data, "analyst".data, "consultant".data,
   "expert".data, "lead".data, "principal".data, "senior".data,
   "araştırmacı".data, "mühendis".data, "geliştirici".data,
   "bilim insanı".data, "yazılımcı".data, "kurucu".data, "yazar".data,
   "uzman".data, "danışman".data, "lider".data, "kıdemli".data,
   "baş".data, "müdür".data]

/-- The role-pattern alternation at one position. -/
def tryRoleAlt (l : List Char) : Option (List Char) :=
  rolePhrases.findSome? (fun ph => altFold ph l)

/-- The `_ORG_PATTERNS` alternatives before `Hugging\s*Face`, in source
order (case-sensitive). -/
def orgPhrasesA : List (List Char) :=
  ["Google".data, "Meta".data, "Microsoft".data, "Apple".data,
   "Amazon".data, "OpenAI".data, "DeepMind".data, "Anthropic".data,
   "MIT".data, "Stanford".data, "Harvard".data, "Berkeley".data,
   "Oxford".data, "Cambridge".data, "Mozilla".data, "GitHub".data,
   "IBM".data, "NVIDIA".data, "Tesla".data, "SpaceX".data]

/-- The `_ORG_PATTERNS` alternatives after `Hugging\s*Face`. -/
def orgPhrasesB : List (List Char) :=
  ["PyTorch".data, "TensorFlow".data, "Keras".data, "Twitter".data,
   "LinkedIn".data, "Facebook".data, "YouTube".data, "Reddit".data]

/-- The `Hugging\s*Face` alternative: `Hugging`, any run of whitespace,
`Face`, case-sensitively, with the trailing boundary. -/
def altHuggingFace (l : List Char) : Option (List Char) :=
  match stripPhraseExact "Hugging".data [] l with
  | some (m1, after1) =>
    let ws := after1.takeWhile pyIsSpace
    match stripPhraseExact "Face".data [] (after1.drop ws.length) with
    | some (m2, after2) =>
      if boundaryAfterLast m2 after2 then some (m1 ++ ws ++ m2) else none
    | none => none
  | none => none

/-- The organisation alternation at one position, in source order. -/
def tryOrgAlt (l : List Char) : Option (List Char) :=
  match orgPhrasesA.findSome? (fun ph => altExact ph l) with
  | some m => some m
  | none =>
    match altHuggingFace l with
    | some m => some m
    | none => orgPhrasesB.findSome? (fun ph => altExact ph l)

/-- The alternatives of `_FIELD_PATTERNS`, in source order
(case-insensitive). -/
def topicPhrases : List (List Char) :=
  ["machine learning".data, "deep learning".data,
   "artificial intelligence".data, "natural language processing".data,
   "NLP".data, "computer vision".data, "non-transformer".data,
   "transformer".data, "neural network".data, "blockchain".data,
   "quantum computing".data, "robotics".data,
   "reinforcement learning".data, "generative AI".data,
   "large language model".data, "diffusion model".data,
   "systematic learning".data, "architecture research".data,
   "ML".data, "AI".data, "CV".data, "LLM".data, "AGI".data,
   "GPT".data, "BERT".data]

/-- The topic alternation at one position. -/
def tryTopicAlt (l : List Char) : Option (List Char) :=
  topicPhrases.findSome? (fun ph => altFold ph l)

/-- The capitalized-word class `[A-ZÇĞİÖŞÜ]` of the person pattern. -/
def isPersonUpper (c : Char) : Bool :=
  c.isUpper || turkishUpperChars.contains c

/-- The lowercase-word class `[a-zçğıöşü]` of the person pattern
(case-sensitive). -/
def isPersonLower (c : Char) : Bool :=
  c.isLower || turkishLowerChars.contains c

/-- One capitalized word `[A-ZÇĞİÖŞÜ][a-zçğıöşü]+` (greedy run of at
least one lowercase letter). -/
def personWord (l : List Char) : Option (List Char × List Char) :=
  match l with
  | c :: rest =>
    if isPersonUpper c then
      let lows := rest.takeWhile isPersonLower
      if lows.isEmpty then none
      else some (c :: lows, rest.drop lows.length)
    else none
  | [] => none

/-- One `\s+`-separated further capitalized word of the `{1,2}` group. -/
def personExtra (l : List Char) : Option (List Char × List Char) :=
  let ws := l.takeWhile pyIsSpace
  if ws.isEmpty then none
  else
    match personWord (l.drop ws.length) with
    | some (w, rest) => some (ws ++ w, rest)
    | none => none

/-- The person pattern
`\b([A-ZÇĞİÖŞÜ][a-zçğıöşü]+(?:\s+[A-ZÇĞİÖŞÜ][a-zçğıöşü]+){1,2})\b` at
one position: a base word plus greedily two further words, falling back
to one when the trailing boundary fails (shrinking a lowercase run can
never restore the boundary, since the next character would be a word
character, so the only backtracking is in the `{1,2}` count). -/
def tryPersonAlt (l : List Char) : Option (List Char) :=
  match personWord l with
  | some (w0, rest0) =>
    match personExtra rest0 with
    | some (e1, rest1) =>
      match personExtra rest1 with
      | some (e2, rest2) =>
        if boundaryAfterLast (w0 ++ e1 ++ e2) rest2 then some (w0 ++ e1 ++ e2)
        else if boundaryAfterLast (w0 ++ e1) rest1 then some (w0 ++ e1)
        else none
      | none =>
        if boundaryAfterLast (w0 ++ e1) rest1 then some (w0 ++ e1) else none
    | none => none
  | none => none

/-- Deduplicating append of one ROLE/ORG/TOPIC match: keep the first
occurrence of each lowercased name across all categories. -/
def addEntity (cat : String) (st : List String × List Entity) (name : String) :
    List String × List Entity :=
  let key := String.mk (pyLowerL name.data)
  if st.1.contains key then st
  else (key :: st.1, st.2 ++ [{ name := name, category := cat }])

/-- Appending one PERSON match: dedup and length filter first, then the
sentence-starter filter on the character immediately before the match
(`text[start-1] in '.!?\n'`); a filtered match adds nothing, not even to
the seen set, exactly as the `continue` does. -/
def addPerson (st : List String × List Entity) (pm : Option Char × List Char) :
    List String × List Entity :=
  let key := String.mk (pyLowerL pm.2)
  if ¬ st.1.contains key ∧ 4 < pm.2.length then
    match pm.1 with
    | some p =>
      if p == '.' || p == '!' || p == '?' || p == '\n' then st
      else (key :: st.1, st.2 ++ [{ name := String.mk pm.2, category := "PERSON" }])
    | none => (key :: st.1, st.2 ++ [{ name := String.mk pm.2, category := "PERSON" }])
  else st

/-- The extractor `extract_entities`: ROLE, then ORG, then TOPIC, then
PERSON matches in text order, deduplicated by lowercase name across all
categories. -/
def extract_entities (text : String) : List Entity :=
  let st0 : List String × List Entity := ([], [])
  let st1 := (finditerM tryRoleAlt text.data).foldl
    (fun st pm => addEntity "ROLE" st (String.mk pm.2)) st0
  let st2 := (finditerM tryOrgAlt text.data).foldl
    (fun st pm => addEntity "ORG" st (String.mk pm.2)) st1
  let st3 := (finditerM tryTopicAlt text.data).foldl
    (fun st pm => addEntity "TOPIC" st (String.mk pm.2)) st2
  let st4 := (finditerM tryPersonAlt text.data).foldl
    (fun st pm => addPerson st pm) st3
  st4.2

/-! ## AnswerComposer: compose_answer (nlp_engine.py lines 464-533) -/

/-- The 55% dedup test of `compose_answer`
(`len(tokens & ex) / max(len(tokens), 1) > 0.55`), with the positive
denominator cleared (0.55 = 11/20); `overlapGt55_iff` proves this equal
to the source's fraction comparison. -/
def overlapGt55 (tokens existing : Finset String) : Bool :=
  decide (11 * max tokens.card 1 < 20 * (tokens ∩ existing).card)

/-- The top-N selection loop of `compose_answer`: keep up to
`max_sentences` sentences in score order, rejecting any whose token set
overlaps a previously selected one's by more than 55%. -/
def composeSelect (maxSentences : Nat) :
    List Sentence → List Sentence → List (Finset String) → List Sentence
  | [], selected, _ => selected
  | sent :: rest, selected, seen =>
    if maxSentences ≤ selected.length then selected
    else
      let tokens := tokenFinset sent.text
      if seen.any (fun ex => overlapGt55 tokens ex) then
        composeSelect maxSentences rest selected seen
      else composeSelect maxSentences rest (selected ++ [sent]) (seen ++ [tokens])

/-- The sort key of `selected.sort(key=lambda s: s.index)`. -/
def indexRel (a b : Sentence) : Prop := a.index ≤ b.index

instance : DecidableRel indexRel :=
  fun a b => inferInstanceAs (Decidable (a.index ≤ b.index))

/-- The first key component of the biographical reordering:
`-(s.is_biographical or s.is_definition)`. -/
def bioKey (s : Sentence) : Int :=
  if s.is_biographical || s.is_definition then -1 else 0

/-- Lexicographic order on `(bioKey, index)`, the biographical
reordering key. -/
def bioRel (a b : Sentence) : Prop :=
  bioKey a < bioKey b ∨ (bioKey a = bioKey b ∧ a.index ≤ b.index)

instance : DecidableRel bioRel :=
  fun a b =>
    inferInstanceAs (Decidable (bioKey a < bioKey b ∨ (bioKey a = bioKey b ∧ a.index ≤ b.index)))

/-- The first key component of the definition reordering:
`-s.is_definition`. -/
def defKey (s : Sentence) : Int :=
  if s.is_definition then -1 else 0

/-- Lexicographic order on `(defKey, index)`, the definition reordering
key. -/
def defRel (a b : Sentence) : Prop :=
  defKey a < defKey b ∨ (defKey a = defKey b ∧ a.index ≤ b.index)

instance : DecidableRel defRel :=
  fun a b =>
    inferInstanceAs (Decidable (defKey a < defKey b ∨ (defKey a = defKey b ∧ a.index ≤ b.index)))

/-- The composer `compose_answer` (the `entities` parameter is unused in
the body, as in the source): select top non-duplicate sentences, restore
document order, apply the query-type reordering (stable sorts on the
lexicographic keys, as Python's stable `sorted` with a tuple key), then
capitalize, punctuate and join; a fixed no-information message when
nothing survives selection. -/
def compose_answer (scored : List Sentence) (_entities : List Entity)
    (query : String) (query_type : String) (maxSentences : Nat) : String :=
  let subject := query_subject query
  let selected := composeSelect maxSentences scored [] []
  if selected.isEmpty then
    "No clear information found for \x27" ++ subject ++ "\x27."
  else
    let selected1 := List.insertionSort indexRel selected
    let selected2 :=
      if query_type == "biographical" then List.insertionSort bioRel selected1
      else if query_type == "definition" then List.insertionSort defRel selected1
      else selected1
    let paragraphs := selected2.map (fun sent =>
      let t := pyStripL sent.text.data
      let t2 :=
        match t with
        | c :: cs => if pyIsLowerChar c then pyUpperChar c :: cs else c :: cs
        | [] => []
      let t3 :=
        match t2.getLast? with
        | some d => if d == '.' || d == '!' || d == '?' then t2 else t2 ++ ['.']
        | none => t2
      String.mk t3)
    String.intercalate " " paragraphs

/-! ## AnswerEngine: synthesize (nlp_engine.py lines 540-648) -/

/-- The final algorithmic answer artifact (the `StructuredAnswer`
dataclass). -/
structure StructuredAnswer where
  summary : String
  key_facts : List String
  entities : List Entity
  sources : List String
  query_type : String
  confidence_label : String
  confidence : ℚ
  raw_debug : Option String := none

/-- The sentinel `_empty_answer`: a fixed could-not-find summary around
the extracted subject, empty facts and entities, label "Very Low", and
confidence hard-coded to 0 — the caller's confidence argument is
accepted and ignored, as in the source. -/
def empty_answer (query : String) (query_type : String) (sources : List String)
    (_confidence : ℚ) : StructuredAnswer :=
  { summary := "Could not find enough information about \x27" ++
      query_subject query ++ "\x27.",
    key_facts := [], entities := [], sources := sources,
    query_type := query_type, confidence_label := "Very Low",
    confidence := 0 }

/-- The no-usable-text condition of `synthesize`: the cleaned, joined
text strips to empty, or segmentation leaves no sentences. -/
def noUsableText (raw_texts : List String) : Bool :=
  let combined := String.intercalate " "
    ((raw_texts.filter (fun t => !t.isEmpty)).map deep_clean)
  (pyStrip combined).isEmpty || (segment_sentences combined).isEmpty

/-- The full pipeline `AnswerEngine.synthesize` (engine parameters
`max_summary_sentences` and `max_key_facts` passed explicitly): clean and
join the raw texts (skipping falsy entries), fall back to
`empty_answer` when nothing usable remains, otherwise segment, score,
extract entities and key facts, compose, and label the caller's
confidence. -/
noncomputable def synthesize (max_summary_sentences max_key_facts : Nat)
    (raw_texts : List String) (query : String) (sources : List String)
    (confidence : ℚ) : StructuredAnswer :=
  let query_type := detect_query_type query
  let subject := query_subject query
  let query_entities := if subject.isEmpty then [] else [subject]
  let cleaned_texts := (raw_texts.filter (fun t => !t.isEmpty)).map deep_clean
  let combined := String.intercalate " " cleaned_texts
  if (pyStrip combined).isEmpty then
    empty_answer query query_type sources confidence
  else
    let sentences := segment_sentences combined
    if sentences.isEmpty then empty_answer query query_type sources confidence
    else
      let scored := score_sentences sentences query query_entities
      let entities := extract_entities combined
      let key_facts := extract_key_facts scored query max_key_facts
      let summary := compose_answer scored entities query query_type
        max_summary_sentences
      { summary := summary, key_facts := key_facts, entities := entities,
        sources := sources, query_type := query_type,
        confidence_label := confidence_label confidence,
        confidence := confidence,
        raw_debug :=
          if combined.isEmpty then none
          else some (String.mk (combined.data.take 500)) }

/-! ## Theorems

The development above embeds the program; everything below settles the
claims about it.  The markers repeat the component each group of
theorems concerns. -/

/-! ### Theorems: Helper lemmas for the interrogator and evaluator claims -/

/-- The local-knowledge fallback always reports success, on both the
table-hit and the templated-notice branch. -/
theorem simulated_search_enhanced_success (query : String) :
    (simulated_search_enhanced query).success = true := by
  simp only [simulated_search_enhanced]
  split <;> rfl

/-- Every gathered outcome is either kept by `attemptOk` or counted by
`attemptIsExn`, so the two tallies partition the task list. -/
theorem filterMap_ok_filter_exn_length (l : List (Attempt QueryRes)) :
    (l.filterMap attemptOk).length + (l.filter attemptIsExn).length = l.length := by
  induction l with
  | nil => rfl
  | cons a t ih =>
    cases a with
    | ok v =>
      simp [attemptOk, attemptIsExn]
      omega
    | exn m =>
      simp [attemptOk, attemptIsExn]
      omega

/-- C5: if the primary (encyclopedic) and the secondary (instant-answer)
sources both fail — by raising or by returning an unsuccessful record —
`execute_query` returns the deterministic local-knowledge fallback's
record, which has `success = true`; no error escapes to the caller. -/
theorem execute_query_fallback_success (wiki ddg : Attempt QueryRes) (query : String)
    (hw : sourceSuccess wiki = none) (hd : sourceSuccess ddg = none) :
    execute_query wiki ddg query = simulated_search_enhanced query ∧
    (execute_query wiki ddg query).success = true := by
  unfold execute_query
  rw [hw, hd]
  exact ⟨rfl, simulated_search_enhanced_success query⟩

/-- Witness for C5: both sources raising concrete exceptions on the query
"python" still yields the successful fallback record. -/
theorem execute_query_fallback_success_witness :
    execute_query (Attempt.exn "HTTP 404") (Attempt.exn "No instant answer available")
        "python" =
      simulated_search_enhanced "python" ∧
    (execute_query (Attempt.exn "HTTP 404") (Attempt.exn "No instant answer available")
        "python").success = true :=
  execute_query_fallback_success (Attempt.exn "HTTP 404")
    (Attempt.exn "No instant answer available") "python" rfl rfl

/-- C6: with more queries than `max_parallel`, `search_parallel` creates
tasks for exactly the first `max_parallel` queries (the excess is dropped:
the result is unchanged if the excess is removed), every returned record
comes from a non-exception outcome of one of those dispatched queries,
and returned records plus counted errors account for exactly the
`max_parallel` dispatched tasks. -/
theorem search_parallel_bounds (maxParallel : Nat) (run : String → Attempt QueryRes)
    (queries : List String) (h : maxParallel < queries.length) :
    (queries.take maxParallel).length = maxParallel ∧
    search_parallel maxParallel run queries =
      search_parallel maxParallel run (queries.take maxParallel) ∧
    (∀ r ∈ (search_parallel maxParallel run queries).1,
      ∃ q ∈ queries.take maxParallel, run q = Attempt.ok r) ∧
    (search_parallel maxParallel run queries).1.length +
      (search_parallel maxParallel run queries).2 = maxParallel := by
  have hlen : (queries.take maxParallel).length = maxParallel := by
    simp only [List.length_take]
    omega
  refine ⟨hlen, ?_, ?_, ?_⟩
  · unfold search_parallel
    rw [List.take_take, Nat.min_self]
  · intro r hr
    unfold search_parallel at hr
    simp only at hr
    rcases List.mem_filterMap.1 hr with ⟨a, ha, hok⟩
    rcases List.mem_map.1 ha with ⟨q, hq, hrun⟩
    refine ⟨q, hq, ?_⟩
    cases a with
    | ok v =>
      simp only [attemptOk, Option.some.injEq] at hok
      rw [hrun, hok]
    | exn m => simp [attemptOk] at hok
  · unfold search_parallel
    simp only
    rw [filterMap_ok_filter_exn_length, List.length_map, hlen]

/-- Witness for C6: two queries, a parallelism bound of one, both tasks
failing; exactly one task is dispatched and its error is counted, not
propagated. -/
theorem search_parallel_bounds_witness :
    ((["alpha", "beta"].take 1).length = 1 ∧
      search_parallel 1 (fun _ => Attempt.exn "boom") ["alpha", "beta"] =
        search_parallel 1 (fun _ => Attempt.exn "boom") (["alpha", "beta"].take 1) ∧
      (∀ r ∈ (search_parallel 1 (fun _ => Attempt.exn "boom") ["alpha", "beta"]).1,
        ∃ q ∈ ["alpha", "beta"].take 1, (fun _ => Attempt.exn "boom") q = Attempt.ok r) ∧
      (search_parallel 1 (fun _ => Attempt.exn "boom") ["alpha", "beta"]).1.length +
        (search_parallel 1 (fun _ => Attempt.exn "boom") ["alpha", "beta"]).2 = 1) :=
  search_parallel_bounds 1 (fun _ => Attempt.exn "boom") ["alpha", "beta"] (by decide)

/-- The final clamp of `_score_hypothesis` lands in [0, 1]. -/
theorem score_hypothesis_bounds (h : String) (state : CognitiveState) :
    0 ≤ score_hypothesis h state ∧ score_hypothesis h state ≤ 1 := by
  unfold score_hypothesis
  exact ⟨le_max_left 0 _, max_le (by norm_num) (min_le_left 1 _)⟩

/-- C9: `evaluate_parallel` returns exactly one score record per input
hypothesis, in input order (the extracted hypothesis column equals the
input list), every score lies in [0, 1], and an empty hypothesis list
yields an empty result. -/
theorem evaluate_parallel_spec (hypotheses : List String) (state : CognitiveState) :
    (evaluate_parallel hypotheses state).length = hypotheses.length ∧
    (evaluate_parallel hypotheses state).map (fun r => r.hypothesis) = hypotheses ∧
    (∀ r ∈ evaluate_parallel hypotheses state, 0 ≤ r.score ∧ r.score ≤ 1) ∧
    (hypotheses = [] → evaluate_parallel hypotheses state = []) := by
  refine ⟨by simp [evaluate_parallel], ?_, ?_, ?_⟩
  · induction hypotheses with
    | nil => rfl
    | cons a t ih =>
      simp only [evaluate_parallel, List.map_cons] at ih ⊢
      rw [ih]
  · intro r hr
    rcases List.mem_map.1 hr with ⟨h, _, rfl⟩
    exact score_hypothesis_bounds h state
  · intro h
    simp [evaluate_parallel, h]

/-- Witness for C9: a single concrete hypothesis against an empty
cognitive state; its score is clamped into [0, 1]. -/
theorem evaluate_parallel_spec_witness :
    0 ≤ ((evaluate_parallel ["the sky is blue"] ⟨[], []⟩).headI).score ∧
    ((evaluate_parallel ["the sky is blue"] ⟨[], []⟩).headI).score ≤ 1 :=
  (evaluate_parallel_spec ["the sky is blue"] ⟨[], []⟩).2.2.1 _
    (by simp [evaluate_parallel, List.headI])

/-- Counterexample for C8 as stated: at confidence 0.1 (below every
cutoff) the code labels the answer "Very Low", not "VeryLow". -/
theorem confidence_label_cex :
    confidence_label 0.1 = "Very Low" ∧ confidence_label 0.1 ≠ "VeryLow" := by
  have h1 : confidence_label 0.1 = "Very Low" := by norm_num [confidence_label]
  refine ⟨h1, ?_⟩
  rw [h1]
  decide

/-- C8 (amended): the label is a pure function of the numeric confidence
with cutoffs 0.8/0.55/0.3 — "High" iff c ≥ 0.8, "Moderate" iff
0.55 ≤ c < 0.8, "Low" iff 0.3 ≤ c < 0.55, and "Very Low" (the code's
spelling) otherwise; in particular confidence 0.64 yields "Moderate". -/
theorem confidence_label_cutoffs :
    (∀ c : ℚ,
      (confidence_label c = "High" ↔ 0.8 ≤ c) ∧
      (confidence_label c = "Moderate" ↔ 0.55 ≤ c ∧ c < 0.8) ∧
      (confidence_label c = "Low" ↔ 0.3 ≤ c ∧ c < 0.55) ∧
      (confidence_label c = "Very Low" ↔ c < 0.3)) ∧
    confidence_label 0.64 = "Moderate" := by
  constructor
  · intro c
    unfold confidence_label
    split_ifs with h1 h2 h3 <;>
      refine ⟨⟨?_, ?_⟩, ⟨?_, ?_⟩, ⟨?_, ?_⟩, ⟨?_, ?_⟩⟩ <;>
      intro h <;>
      (try obtain ⟨ha, hb⟩ := h) <;>
      first
        | rfl
        | linarith
        | (exact absurd h (by decide))
        | (exact ⟨by linarith, by linarith⟩)
  · norm_num [confidence_label]

/-! ### Theorems: TextNormalizer: deep_clean (nlp_engine.py lines 102-161) -/

/-- Counterexample for C4: `deep_clean` is not idempotent on all inputs.
On "wordandthe morewords." the concatenation-repair rule splits off the
function word "the", producing a run "wordand" that the same rule splits
again on the second pass. -/
theorem deep_clean_not_idempotent :
    deep_clean "wordandthe morewords." = "wordand the morewords." ∧
    deep_clean (deep_clean "wordandthe morewords.") = "word and the morewords." ∧
    deep_clean (deep_clean "wordandthe morewords.") ≠
      deep_clean "wordandthe morewords." := by
  refine ⟨by decide, by decide, by decide⟩

/-- C4 (amended): the normalizer is idempotent on text already free of
the targeted noise patterns, i.e. on text the cleaner leaves unchanged;
on raw inputs a pass can create new matches for the concatenation-repair
rule, so idempotence does not hold in general. -/
theorem deep_clean_idempotent_on_clean (x : String) (h : deep_clean x = x) :
    deep_clean (deep_clean x) = deep_clean x := by
  rw [h, h]

/-- Witness for C4 (amended): a concrete already-clean sentence is a
fixed point of `deep_clean`, hence cleaning it twice equals cleaning it
once. -/
theorem deep_clean_idempotent_on_clean_witness :
    deep_clean (deep_clean "This is a clean example sentence.") =
      deep_clean "This is a clean example sentence." :=
  deep_clean_idempotent_on_clean "This is a clean example sentence." (by decide)

/-! ### Theorems: Claim C1: composite scores -/

/-- Every IDF weight is nonnegative: the document frequency of a word is
at most the corpus size, so the log argument is at least 1. -/
theorem idfWeight_nonneg (sentences : List String) (w : String) :
    0 ≤ idfWeight sentences w := by
  unfold idfWeight
  split_ifs with h
  · have hdf : docFreq sentences w ≤ sentences.length := List.length_filter_le _ _
    have hcast : (docFreq sentences w : ℝ) ≤ (sentences.length : ℝ) := Nat.cast_le.mpr hdf
    have h1 : (1 : ℝ) ≤ ((sentences.length : ℝ) + 1) / ((docFreq sentences w : ℝ) + 1) := by
      rw [le_div_iff₀ (by positivity)]
      linarith
    have h2 := Real.log_nonneg h1
    linarith
  · norm_num

/-- The entity-score accumulation only ever adds 0.5, so it stays
nonnegative. -/
theorem entityFold_nonneg (text : String) (ents : List String) (init : ℝ)
    (hinit : 0 ≤ init) :
    0 ≤ ents.foldl
      (fun acc ent =>
        if containsL (pyLowerL ent.data) (pyLowerL text.data) then acc + 0.5
        else acc)
      init := by
  induction ents generalizing init with
  | nil => exact hinit
  | cons e es ih =>
    simp only [List.foldl]
    apply ih
    split_ifs with h
    · linarith
    · exact hinit

/-- Every component of the composite is nonnegative, hence so is the
weighted sum. -/
theorem scoreOne_score_nonneg (sentences : List String) (query : String)
    (query_entities : List String) (idx : Nat) (text : String) :
    0 ≤ (scoreOne sentences query query_entities idx text).score := by
  unfold scoreOne
  dsimp only
  refine add_nonneg (add_nonneg (add_nonneg (add_nonneg (add_nonneg ?_ ?_) ?_) ?_) ?_) ?_
  · refine mul_nonneg ?_ (by norm_num)
    split_ifs with h
    · exact div_nonneg (Finset.sum_nonneg fun t _ => idfWeight_nonneg sentences t)
        (by positivity)
    · exact le_refl 0
  · exact mul_nonneg (le_max_left 0 _) (by norm_num)
  · refine mul_nonneg ?_ (by norm_num)
    split_ifs <;> norm_num
  · exact mul_nonneg (entityFold_nonneg text query_entities 0 le_rfl) (by norm_num)
  · split_ifs <;> norm_num
  · split_ifs <;> norm_num

/-- Every sentence record produced by the scoring loop has a nonnegative
composite score. -/
theorem scoreSentencesFrom_score_nonneg (sentences : List String) (query : String)
    (query_entities : List String) :
    ∀ (i : Nat) (l : List String),
      ∀ s ∈ scoreSentencesFrom sentences query query_entities i l, 0 ≤ s.score := by
  intro i l
  induction l generalizing i with
  | nil => intro s hs; simp [scoreSentencesFrom] at hs
  | cons t rest ih =>
    intro s hs
    simp only [scoreSentencesFrom, List.mem_cons] at hs
    rcases hs with rfl | hs
    · exact scoreOne_score_nonneg sentences query query_entities i t
    · exact ih (i + 1) s hs

/-- C1 (amended): every Sentence record returned by the ranker has a
nonnegative composite score.  The composite is the stated weighted sum
`0.45*relevance + 0.15*position + 0.10*length + 0.20*entity +
0.10*[is_definition] + 0.10*[is_biographical]`, which the code does not
clamp; it can exceed 1 (see the counterexample). -/
theorem score_sentences_nonneg (sentences : List String) (query : String)
    (query_entities : List String) :
    ∀ s ∈ score_sentences sentences query query_entities, 0 ≤ s.score := by
  intro s hs
  rw [score_sentences] at hs
  exact scoreSentencesFrom_score_nonneg sentences query query_entities 0 sentences s
    ((List.mem_insertionSort scoreRel).1 hs)

/-- Witness for C1 (amended): the nonnegativity theorem applied to a
concrete one-sentence corpus. -/
theorem score_sentences_nonneg_witness :
    0 ≤ (scoreOne ["alpha beta gamma"] "alpha" [] 0 "alpha beta gamma").score :=
  score_sentences_nonneg ["alpha beta gamma"] "alpha" [] _
    (by simp [score_sentences, scoreSentencesFrom, List.insertionSort,
          List.orderedInsert])

/-- Counterexample for C1 as stated: composite scores are not clamped to
[0, 1].  On a one-sentence corpus whose sentence carries the definition
and biographical signals, has 15 words, sits at position 0, and contains
six query entities, the composite is
0*0.45 + 1*0.15 + 1*0.10 + 3.0*0.20 + 0.10 + 0.10 = 1.05 > 1. -/
theorem score_sentences_not_clamped :
    1 < ((score_sentences
      ["alpha is a researcher born in beta gamma delta epsilon eta theta iota kappa mu"]
      "qqq" ["alpha", "beta", "gamma", "delta", "epsilon", "eta"]).headI).score := by
  have hout : score_sentences
      ["alpha is a researcher born in beta gamma delta epsilon eta theta iota kappa mu"]
      "qqq" ["alpha", "beta", "gamma", "delta", "epsilon", "eta"] =
      [scoreOne
        ["alpha is a researcher born in beta gamma delta epsilon eta theta iota kappa mu"]
        "qqq" ["alpha", "beta", "gamma", "delta", "epsilon", "eta"] 0
        "alpha is a researcher born in beta gamma delta epsilon eta theta iota kappa mu"] := by
    simp [score_sentences, scoreSentencesFrom, List.insertionSort, List.orderedInsert]
  rw [hout]
  simp only [List.headI]
  unfold scoreOne
  dsimp only
  rw [if_neg (by decide :
    ¬ (tokenFinset "qqq" ∩ tokenFinset
        "alpha is a researcher born in beta gamma delta epsilon eta theta iota kappa mu").Nonempty)]
  rw [(by decide : (tokensOf
    "alpha is a researcher born in beta gamma delta epsilon eta theta iota kappa mu").length = 15)]
  rw [if_pos (by norm_num : 15 ≤ 15 ∧ 15 ≤ 50)]
  rw [(by decide : searchPhrases defPhrases none
    "alpha is a researcher born in beta gamma delta epsilon eta theta iota kappa mu".data = true)]
  rw [(by decide : searchPhrases bioPhrases none
    "alpha is a researcher born in beta gamma delta epsilon eta theta iota kappa mu".data = true)]
  simp only [List.foldl,
    (by decide : containsL (pyLowerL "alpha".data) (pyLowerL
      "alpha is a researcher born in beta gamma delta epsilon eta theta iota kappa mu".data) = true),
    (by decide : containsL (pyLowerL "beta".data) (pyLowerL
      "alpha is a researcher born in beta gamma delta epsilon eta theta iota kappa mu".data) = true),
    (by decide : containsL (pyLowerL "gamma".data) (pyLowerL
      "alpha is a researcher born in beta gamma delta epsilon eta theta iota kappa mu".data) = true),
    (by decide : containsL (pyLowerL "delta".data) (pyLowerL
      "alpha is a researcher born in beta gamma delta epsilon eta theta iota kappa mu".data) = true),
    (by decide : containsL (pyLowerL "epsilon".data) (pyLowerL
      "alpha is a researcher born in beta gamma delta epsilon eta theta iota kappa mu".data) = true),
    (by decide : containsL (pyLowerL "eta".data) (pyLowerL
      "alpha is a researcher born in beta gamma delta epsilon eta theta iota kappa mu".data) = true),
    if_true]
  norm_num [max_def]

/-! ### Theorems: Claim C3: the ranking contract -/

/-- The index field of a scored sentence is its enumeration position. -/
theorem scoreOne_index (sentences : List String) (query : String)
    (query_entities : List String) (idx : Nat) (text : String) :
    (scoreOne sentences query query_entities idx text).index = idx := rfl

/-- The text field of a scored sentence is unchanged. -/
theorem scoreOne_text (sentences : List String) (query : String)
    (query_entities : List String) (idx : Nat) (text : String) :
    (scoreOne sentences query query_entities idx text).text = text := rfl

/-- The scoring loop yields one record per input string. -/
theorem scoreSentencesFrom_length (sentences : List String) (query : String)
    (query_entities : List String) :
    ∀ (i : Nat) (l : List String),
      (scoreSentencesFrom sentences query query_entities i l).length = l.length := by
  intro i l
  induction l generalizing i with
  | nil => rfl
  | cons t rest ih => simp [scoreSentencesFrom, ih]

/-- Membership in the scoring loop's output characterised by enumeration
position. -/
theorem mem_scoreSentencesFrom {sentences : List String} {query : String}
    {query_entities : List String} {s : Sentence} :
    ∀ {i : Nat} {l : List String},
      (s ∈ scoreSentencesFrom sentences query query_entities i l ↔
        ∃ k, ∃ hk : k < l.length,
          s = scoreOne sentences query query_entities (i + k) (l.get ⟨k, hk⟩)) := by
  intro i l
  induction l generalizing i with
  | nil => simp [scoreSentencesFrom]
  | cons t rest ih =>
    simp only [scoreSentencesFrom, List.mem_cons]
    constructor
    · intro h
      rcases h with h | h
      · exact ⟨0, Nat.succ_pos _, h⟩
      · rcases ih.1 h with ⟨k, hk, hs⟩
        refine ⟨k + 1, by simp only [List.length_cons]; omega, ?_⟩
        have harith : i + (k + 1) = i + 1 + k := by omega
        rw [harith]
        exact hs
    · rintro ⟨k, hk, hs⟩
      cases k with
      | zero => exact Or.inl hs
      | succ k =>
        right
        refine ih.2 ⟨k, by simp only [List.length_cons] at hk; omega, ?_⟩
        have harith : i + 1 + k = i + (k + 1) := by omega
        rw [harith]
        exact hs

/-- The scoring loop produces strictly increasing indices. -/
theorem scoreSentencesFrom_pairwise_index (sentences : List String) (query : String)
    (query_entities : List String) :
    ∀ (i : Nat) (l : List String),
      (scoreSentencesFrom sentences query query_entities i l).Pairwise
        (fun a b => a.index < b.index) := by
  intro i l
  induction l generalizing i with
  | nil => simp [scoreSentencesFrom]
  | cons t rest ih =>
    simp only [scoreSentencesFrom]
    refine List.Pairwise.cons ?_ (ih (i + 1))
    intro b hb
    rcases mem_scoreSentencesFrom.1 hb with ⟨k, hk, rfl⟩
    rw [scoreOne_index, scoreOne_index]
    omega

/-- Inserting an element whose index is below every index in a
`stableRel`-pairwise list preserves the pairwise relation: `orderedInsert`
places it before the first element of no greater score. -/
theorem stable_orderedInsert (a : Sentence) (l : List Sentence)
    (h1 : ∀ b ∈ l, a.index < b.index) (h2 : l.Pairwise stableRel) :
    (List.orderedInsert scoreRel a l).Pairwise stableRel := by
  induction l with
  | nil => simp [List.orderedInsert]
  | cons b t ih =>
    simp only [List.orderedInsert]
    split_ifs with hr
    · refine List.Pairwise.cons ?_ h2
      intro x hx
      exact Or.inr (h1 x hx)
    · have hab : a.score < b.score := not_le.1 hr
      rcases List.pairwise_cons.1 h2 with ⟨hbt, ht⟩
      refine List.Pairwise.cons ?_
        (ih (fun x hx => h1 x (List.mem_cons_of_mem b hx)) ht)
      intro x hx
      rcases (List.mem_orderedInsert scoreRel).1 hx with rfl | hx
      · exact Or.inl hab
      · exact hbt x hx

/-- A list with strictly increasing indices is `stableRel`-pairwise after
insertion sorting by descending score: the sort is stable. -/
theorem stable_insertionSort (l : List Sentence)
    (h : l.Pairwise (fun a b => a.index < b.index)) :
    (List.insertionSort scoreRel l).Pairwise stableRel := by
  induction l with
  | nil => simp [List.insertionSort]
  | cons x xs ih =>
    rcases List.pairwise_cons.1 h with ⟨hx, hxs⟩
    simp only [List.insertionSort]
    refine stable_orderedInsert x _ ?_ (ih hxs)
    intro b hb
    exact hx b ((List.mem_insertionSort scoreRel).1 hb)

/-- C3: on a non-empty corpus, `score_sentences` returns exactly one
Sentence per input string — the output has the input's length, every
input position appears with its text unchanged and its index equal to
that position, every output record points back at its input string, and
the indices are pairwise distinct — sorted by non-increasing composite
score with ties broken by original index (the stable sort). -/
theorem score_sentences_spec (sentences : List String) (query : String)
    (query_entities : List String) (_hne : sentences ≠ []) :
    (score_sentences sentences query query_entities).length = sentences.length ∧
    (∀ k (hk : k < sentences.length),
      ∃ s ∈ score_sentences sentences query query_entities,
        s.text = sentences.get ⟨k, hk⟩ ∧ s.index = k) ∧
    (∀ s ∈ score_sentences sentences query query_entities,
      ∃ hk : s.index < sentences.length,
        s.text = sentences.get ⟨s.index, hk⟩) ∧
    ((score_sentences sentences query query_entities).map (fun s => s.index)).Nodup ∧
    (score_sentences sentences query query_entities).Pairwise
      (fun a b => b.score ≤ a.score ∧ (a.score = b.score → a.index < b.index)) := by
  have hperm : List.Perm (score_sentences sentences query query_entities)
      (scoreSentencesFrom sentences query query_entities 0 sentences) :=
    List.perm_insertionSort scoreRel _
  have hpwidx := scoreSentencesFrom_pairwise_index sentences query query_entities 0 sentences
  refine ⟨?_, ?_, ?_, ?_, ?_⟩
  · rw [hperm.length_eq, scoreSentencesFrom_length]
  · intro k hk
    refine ⟨scoreOne sentences query query_entities k (sentences.get ⟨k, hk⟩),
      ?_, rfl, rfl⟩
    rw [hperm.mem_iff]
    exact mem_scoreSentencesFrom.2 ⟨k, hk, by rw [Nat.zero_add]⟩
  · intro s hs
    rcases mem_scoreSentencesFrom.1 (hperm.subset hs) with ⟨k, hk, rfl⟩
    simp only [scoreOne_index, scoreOne_text, Nat.zero_add]
    exact ⟨hk, trivial⟩
  · have hmap : ((scoreSentencesFrom sentences query query_entities 0 sentences).map
        (fun s => s.index)).Pairwise (fun a b => a ≠ b) :=
      (List.pairwise_map.2 hpwidx).imp ne_of_lt
    have hnd : ((scoreSentencesFrom sentences query query_entities 0 sentences).map
        (fun s => s.index)).Nodup := hmap
    exact ((hperm.map (fun s => s.index)).nodup_iff).2 hnd
  · have hsorted : (score_sentences sentences query query_entities).Pairwise scoreRel :=
      List.sorted_insertionSort scoreRel _
    have hstable : (score_sentences sentences query query_entities).Pairwise stableRel :=
      stable_insertionSort _ hpwidx
    exact (hsorted.and hstable).imp
      (fun hab => ⟨hab.1, fun heq => hab.2.resolve_left (fun hlt => ne_of_gt hlt heq)⟩)

/-- Witness for C3: the ranking contract applied to a concrete
one-sentence corpus. -/
theorem score_sentences_spec_witness :
    (score_sentences ["one concrete example sentence"] "example" []).length =
      (["one concrete example sentence"] : List String).length :=
  (score_sentences_spec ["one concrete example sentence"] "example" [] (by simp)).1

/-! ### Theorems: AnswerComposer: extract_key_facts (nlp_engine.py lines 385-420) -/

/-- The denominator-cleared dedup test coincides with the source's
fraction comparison against 0.60. -/
theorem overlapGt60_iff (tokens existing : Finset String) :
    overlapGt60 tokens existing = true ↔
    (0.60 : ℚ) < ((tokens ∩ existing).card : ℚ) / ((max tokens.card 1 : Nat) : ℚ) := by
  unfold overlapGt60
  rw [decide_eq_true_iff]
  have hM : (0 : ℚ) < ((max tokens.card 1 : Nat) : ℚ) := by
    have h1 : 1 ≤ max tokens.card 1 := le_max_right _ _
    exact_mod_cast Nat.lt_of_lt_of_le Nat.zero_lt_one h1
  rw [lt_div_iff₀ hM]
  constructor <;> intro h
  · have h' : (3 * max tokens.card 1 : ℚ) < (5 * (tokens ∩ existing).card : ℚ) := by
      exact_mod_cast h
    push_cast at h' ⊢
    linarith
  · have h' : (3 * max tokens.card 1 : ℚ) < (5 * (tokens ∩ existing).card : ℚ) := by
      push_cast at h ⊢
      linarith
    exact_mod_cast h'

/-- Counterexample for C2 as stated: two sentences that share only their
first sentence "alpha beta gamma delta epsilon zeta." overlap by 6/12 =
50% on their full token sets, so both are kept; but the returned facts
are both that first sentence, whose token sets overlap by 6/6 = 100% >
60%. -/
theorem extract_key_facts_overlap_cex :
    extract_key_facts
      [{ text := "alpha beta gamma delta epsilon zeta. unique untold upward uneven urgent utmost",
         index := 0 },
       { text := "alpha beta gamma delta epsilon zeta. velvet vortex violet vacuum valley voyage",
         index := 1 }]
      "anything" 5 =
      ["alpha beta gamma delta epsilon zeta.", "alpha beta gamma delta epsilon zeta."] ∧
    (0.60 : ℚ) <
      ((tokenFinset "alpha beta gamma delta epsilon zeta." ∩
          tokenFinset "alpha beta gamma delta epsilon zeta.").card : ℚ) /
        ((max (tokenFinset "alpha beta gamma delta epsilon zeta.").card 1 : Nat) : ℚ) := by
  exact ⟨by decide, (overlapGt60_iff _ _).1 (by decide)⟩

/-- The loop invariant of `extract_key_facts`: the sentences kept from
the remaining list form a sublist, none of them overlaps any already-seen
token set by more than 60%, they are pairwise non-overlapping in that
sense (each later one against each earlier one), the emitted facts are
exactly their trimmed first sentences appended to the accumulator, and
the output length never exceeds the larger of the accumulator length and
`max_facts`. -/
theorem extractLoop_spec (maxFacts : Nat) :
    ∀ (rest : List Sentence) (facts : List String) (seen : List (Finset String)),
      ∃ kept : List Sentence,
        List.Sublist kept rest ∧
        (∀ a ∈ kept, ∀ ex ∈ seen, overlapGt60 (tokenFinset a.text) ex = false) ∧
        kept.Pairwise
          (fun a b => overlapGt60 (tokenFinset b.text) (tokenFinset a.text) = false) ∧
        extractLoop maxFacts rest facts seen =
          facts ++ kept.filterMap (fun s => factOfText s.text) ∧
        (extractLoop maxFacts rest facts seen).length ≤ max facts.length maxFacts := by
  intro rest
  induction rest with
  | nil =>
    intro facts seen
    exact ⟨[], List.nil_sublist _, by simp, by simp, by simp [extractLoop],
      by simp [extractLoop, le_max_left]⟩
  | cons sent rest' ih =>
    intro facts seen
    by_cases hfull : maxFacts ≤ facts.length
    · refine ⟨[], List.nil_sublist _, by simp, by simp, ?_, ?_⟩
      · simp [extractLoop, if_pos hfull]
      · simp [extractLoop, if_pos hfull, le_max_left]
    · by_cases hdup :
        seen.any (fun existing => overlapGt60 (tokenFinset sent.text) existing) = true
      · rcases ih facts seen with ⟨kept, hsub, hseen, hpw, heq, hlen⟩
        refine ⟨kept, hsub.cons sent, hseen, hpw, ?_, ?_⟩
        · rw [extractLoop, if_neg hfull, if_pos hdup]
          exact heq
        · rw [extractLoop, if_neg hfull, if_pos hdup]
          exact hlen
      · have hnone : ∀ ex ∈ seen, overlapGt60 (tokenFinset sent.text) ex = false := by
          intro ex hex
          rcases Bool.eq_false_or_eq_true
            (overlapGt60 (tokenFinset sent.text) ex) with h | h
          · exact absurd (List.any_eq_true.2 ⟨ex, hex, h⟩) hdup
          · exact h
        cases hfact : factOfText sent.text with
        | some fact =>
          rcases ih (facts ++ [fact]) (seen ++ [tokenFinset sent.text]) with
            ⟨kept, hsub, hseen, hpw, heq, hlen⟩
          refine ⟨sent :: kept, hsub.cons₂ sent, ?_, ?_, ?_, ?_⟩
          · intro a ha ex hex
            rcases List.mem_cons.1 ha with rfl | ha
            · exact hnone ex hex
            · exact hseen a ha ex (List.mem_append_left _ hex)
          · refine List.Pairwise.cons ?_ hpw
            intro b hb
            exact hseen b hb (tokenFinset sent.text)
              (List.mem_append_right _ (List.mem_singleton.2 rfl))
          · rw [extractLoop, if_neg hfull, if_neg hdup, hfact]
            dsimp only
            rw [heq]
            simp [hfact]
          · rw [extractLoop, if_neg hfull, if_neg hdup, hfact]
            dsimp only
            refine le_trans hlen ?_
            simp only [List.length_append, List.length_cons, List.length_nil]
            omega
        | none =>
          rcases ih facts (seen ++ [tokenFinset sent.text]) with
            ⟨kept, hsub, hseen, hpw, heq, hlen⟩
          refine ⟨sent :: kept, hsub.cons₂ sent, ?_, ?_, ?_, ?_⟩
          · intro a ha ex hex
            rcases List.mem_cons.1 ha with rfl | ha
            · exact hnone ex hex
            · exact hseen a ha ex (List.mem_append_left _ hex)
          · refine List.Pairwise.cons ?_ hpw
            intro b hb
            exact hseen b hb (tokenFinset sent.text)
              (List.mem_append_right _ (List.mem_singleton.2 rfl))
          · rw [extractLoop, if_neg hfull, if_neg hdup, hfact]
            dsimp only
            rw [heq]
            simp [hfact]
          · rw [extractLoop, if_neg hfull, if_neg hdup, hfact]
            dsimp only
            exact hlen

/-- C2 (amended): the 60% dedup of `extract_key_facts` applies to the
full (untrimmed) token sets of the sentences it keeps: the kept sentences
form a sublist of the input, each later kept sentence's token set shares
at most 60% of its tokens with each earlier kept one's, the returned
facts are exactly the kept sentences' trimmed first sentences (at most
`max_facts` of them) — and it is these trimmed returned strings that may
still overlap by more than 60% (see the counterexample). -/
theorem extract_key_facts_dedup (scored : List Sentence) (query : String)
    (maxFacts : Nat) :
    ∃ kept : List Sentence,
      List.Sublist kept scored ∧
      kept.Pairwise
        (fun a b => overlapGt60 (tokenFinset b.text) (tokenFinset a.text) = false) ∧
      extract_key_facts scored query maxFacts =
        kept.filterMap (fun s => factOfText s.text) ∧
      (extract_key_facts scored query maxFacts).length ≤ maxFacts := by
  rcases extractLoop_spec maxFacts scored [] [] with ⟨kept, hsub, _, hpw, heq, hlen⟩
  refine ⟨kept, hsub, hpw, ?_, ?_⟩
  · rw [extract_key_facts, heq]
    simp
  · rw [extract_key_facts]
    simpa using hlen

/-! ### Theorems: AnswerComposer: compose_answer (nlp_engine.py lines 464-533) -/

/-- The denominator-cleared 55% test coincides with the source's
fraction comparison. -/
theorem overlapGt55_iff (tokens existing : Finset String) :
    overlapGt55 tokens existing = true ↔
    (0.55 : ℚ) < ((tokens ∩ existing).card : ℚ) / ((max tokens.card 1 : Nat) : ℚ) := by
  unfold overlapGt55
  rw [decide_eq_true_iff]
  have hM : (0 : ℚ) < ((max tokens.card 1 : Nat) : ℚ) := by
    have h1 : 1 ≤ max tokens.card 1 := le_max_right _ _
    exact_mod_cast Nat.lt_of_lt_of_le Nat.zero_lt_one h1
  rw [lt_div_iff₀ hM]
  constructor <;> intro h
  · have h' : (11 * max tokens.card 1 : ℚ) < (20 * (tokens ∩ existing).card : ℚ) := by
      exact_mod_cast h
    push_cast at h' ⊢
    linarith
  · have h' : (11 * max tokens.card 1 : ℚ) < (20 * (tokens ∩ existing).card : ℚ) := by
      push_cast at h ⊢
      linarith
    exact_mod_cast h'

/-! ### Theorems: Claims C7 and C10: the no-evidence path of synthesize -/

/-- The empty needle is a substring of everything. -/
theorem containsL_nil (hay : List Char) : containsL [] hay = true := by
  cases hay with
  | nil => rfl
  | cons c rest => simp [containsL, startsWithL]

/-- A prefix match survives extending the text on the right. -/
theorem startsWithL_append (needle l b : List Char)
    (h : startsWithL needle l = true) : startsWithL needle (l ++ b) = true := by
  induction needle generalizing l with
  | nil => rfl
  | cons n ns ih =>
    cases l with
    | nil => simp [startsWithL] at h
    | cons c cs =>
      simp only [startsWithL, Bool.and_eq_true] at h ⊢
      exact ⟨h.1, ih cs h.2⟩

/-- A substring of `a` is a substring of `a ++ b`. -/
theorem containsL_append_left (needle a b : List Char)
    (h : containsL needle a = true) : containsL needle (a ++ b) = true := by
  induction a with
  | nil =>
    simp only [containsL] at h
    rcases needle with _ | ⟨n, ns⟩
    · exact containsL_nil b
    · simp [List.isEmpty] at h
  | cons c a' ih =>
    simp only [containsL, Bool.or_eq_true] at h
    rcases h with h | h
    · simp only [List.cons_append, containsL, Bool.or_eq_true]
      exact Or.inl (startsWithL_append _ _ b h)
    · simp only [List.cons_append, containsL, Bool.or_eq_true]
      exact Or.inr (ih h)

/-- C7 (amended): invoking `synthesize` with an empty raw-text list
returns, for every query, source list and caller confidence, a sentinel
answer whose confidence label is "Very Low" (the code's spelling of the
spec's VeryLow) and whose summary is the fixed could-not-find sentence
around the extracted subject — in particular it contains the "not find"
indication; no exception is involved, the function is total. -/
theorem synthesize_no_evidence (max_summary_sentences max_key_facts : Nat)
    (query : String) (sources : List String) (confidence : ℚ) :
    (synthesize max_summary_sentences max_key_facts [] query sources
        confidence).confidence_label = "Very Low" ∧
    (synthesize max_summary_sentences max_key_facts [] query sources
        confidence).summary =
      "Could not find enough information about \x27" ++ query_subject query ++
        "\x27." ∧
    containsS "not find"
      (synthesize max_summary_sentences max_key_facts [] query sources
        confidence).summary = true := by
  refine ⟨rfl, rfl, ?_⟩
  show containsL "not find".data
    (("Could not find enough information about \x27" ++ query_subject query ++
      "\x27.").data) = true
  rw [String.data_append, String.data_append, List.append_assoc]
  exact containsL_append_left _ _ _ (by decide)

/-- Counterexample for C7 as stated: on the spec's own test input
(`synthesize([], query="unknown", confidence=0.0)`) the label is
"Very Low", not the claimed "VeryLow". -/
theorem synthesize_no_evidence_cex :
    (synthesize 5 5 [] "unknown" [] 0).confidence_label = "Very Low" ∧
    (synthesize 5 5 [] "unknown" [] 0).confidence_label ≠ "VeryLow" ∧
    (synthesize 5 5 [] "unknown" [] 0).summary =
      "Could not find enough information about \x27unknown\x27." := by
  exact ⟨rfl, by decide, by decide⟩

/-- C10: the confidence of the returned answer is 0 on the
no-usable-text path, whatever confidence the caller supplied (the
argument is ignored there), and the supplied confidence unchanged on the
non-empty path; in particular every empty-raw-texts call returns
confidence 0. -/
theorem synthesize_confidence_spec (max_summary_sentences max_key_facts : Nat)
    (raw_texts : List String) (query : String) (sources : List String)
    (confidence : ℚ) :
    (synthesize max_summary_sentences max_key_facts raw_texts query sources
        confidence).confidence =
      (if noUsableText raw_texts then 0 else confidence) ∧
    (synthesize max_summary_sentences max_key_facts [] query sources
        confidence).confidence = 0 := by
  constructor
  · unfold synthesize noUsableText
    dsimp only
    by_cases h1 : (pyStrip (String.intercalate " "
        ((raw_texts.filter (fun t => !t.isEmpty)).map deep_clean))).isEmpty = true
    · rw [if_pos h1, if_pos (by simp [h1])]
      rfl
    · rw [if_neg h1]
      by_cases h2 : (segment_sentences (String.intercalate " "
          ((raw_texts.filter (fun t => !t.isEmpty)).map deep_clean))).isEmpty = true
      · rw [if_pos h2, if_pos (by simp [h2])]
        rfl
      · rw [if_neg h2]
        have hx1 := Bool.eq_false_iff.2 h1
        have hx2 := Bool.eq_false_iff.2 h2
        rw [if_neg (show ¬ (((pyStrip (String.intercalate " "
            ((raw_texts.filter (fun t => !t.isEmpty)).map deep_clean))).isEmpty ||
            (segment_sentences (String.intercalate " "
            ((raw_texts.filter (fun t => !t.isEmpty)).map deep_clean))).isEmpty) = true)
          from by simp [hx1, hx2])]
  · rfl
